import Mathlib

/-!
# Verification of the RTSFheGameFHE contract

Shallow embedding of contracts/RTS_Fhe_Game.sol (contract RTSFheGameFHE).
Addresses, timestamps and ciphertext handles are modelled as natural
numbers; the euint32 handle of the FHE library is its underlying bytes32
value, with FHE.isInitialized(h) = (h is nonzero).  keccak256(abi.encode
(ctsBytes, address(this))) is modelled as an injective constructor over
its preimage, with a separate value for the all-zero default of a storage
slot.  The external FHE.checkSignatures call is an oracle: a Boolean
parameter says whether the proof verifies, and a failing proof aborts the
call.  FHE.requestDecryption is an oracle supplying the request id as a
parameter.  Each external function becomes a pure function from the
pre-state and the call parameters to an Outcome: an optional error (the
custom error the call reverts with, if any), the post-state, and the list
of emitted events.  On the revert paths the returned state is the state
at the revert point, so the atomicity of a failing call is a theorem
about the code, not an artefact of the embedding.
-/

namespace RTSFheGame

/-- The custom errors declared by the contract, plus DecodeError for the
abi.decode failure in the callback (a plain revert, no custom error). -/
inductive Err where
  | NotOwner
  | NotProvider
  | Paused
  | CooldownActive
  | InvalidArgument
  | BatchNotOpen
  | ReplayAttempt
  | StateMismatch
  | InvalidProof
  | DecodeError
  deriving DecidableEq

/-- A bytes32 hash slot: either the all-zero default of an untouched
storage slot, or the keccak image of abi.encode(ctsBytes, thisAddress).
keccak256 is modelled as injective on its preimage and never zero. -/
inductive HashVal where
  | zero
  | keccak (cts : List Nat) (self : Nat)
  deriving DecidableEq

/-- struct PlayerData: two euint32 ciphertext handles. -/
structure PlayerData where
  encryptedTotalResources : Nat
  encryptedCollectionRate : Nat
  deriving DecidableEq

/-- struct DecryptionContext. -/
structure DecryptionContext where
  batchId : Nat
  stateHash : HashVal
  processed : Bool
  deriving DecidableEq

/-- The events the contract can emit. -/
inductive Event where
  | ProviderAdded (provider : Nat)
  | ProviderRemoved (provider : Nat)
  | CooldownSecondsSet (oldValue newValue : Nat)
  | ContractPaused
  | ContractUnpaused
  | BatchOpened (batchId : Nat)
  | BatchClosed (batchId : Nat)
  | ResourcesSubmitted (provider batchId encryptedTotal encryptedRate : Nat)
  | DecryptionRequested (requestId batchId : Nat)
  | DecryptionCompleted (requestId batchId totalResources collectionRate : Nat)
  deriving DecidableEq

/-- The contract storage.  self is address(this), fixed at deployment.
Solidity mappings become total functions whose value at an untouched key
is the type's zero default. -/
structure ContractState where
  self : Nat
  isProvider : Nat → Bool
  playerData : Nat → Nat → PlayerData
  batchOpen : Nat → Bool
  decryptionContexts : Nat → DecryptionContext
  lastSubmissionTime : Nat → Nat
  lastDecryptionRequestTime : Nat → Nat
  owner : Nat
  cooldownSeconds : Nat
  currentBatchId : Nat
  paused : Bool

/-- Result of one external call: the custom error it reverted with (none
on success), the storage at return/revert, and the emitted events. -/
structure Outcome where
  err : Option Err
  state : ContractState
  events : List Event

/-- Point update of a mapping. -/
def updMap {α : Type} (f : Nat → α) (k : Nat) (v : α) : Nat → α :=
  fun x => if x = k then v else f x

/-- FHE.isInitialized on a euint32 handle: the handle is nonzero. -/
def isInit (h : Nat) : Bool := decide (h ≠ 0)

/-- _hashCiphertexts: keccak256(abi.encode(map toBytes32 cts, address(this))),
with toBytes32 the identity on the modelled handle. -/
def hashCiphertexts (cts : List Nat) (self : Nat) : HashVal :=
  HashVal.keccak cts self

/-- The constructor: owner := msg.sender, cooldownSeconds := 30,
currentBatchId := 1, batchOpen[1] := true; all mappings at their zero
defaults. -/
def initState (deployer self : Nat) : ContractState where
  self := self
  isProvider := fun _ => false
  playerData := fun _ _ => ⟨0, 0⟩
  batchOpen := fun b => if b = 1 then true else false
  decryptionContexts := fun _ => ⟨0, HashVal.zero, false⟩
  lastSubmissionTime := fun _ => 0
  lastDecryptionRequestTime := fun _ => 0
  owner := deployer
  cooldownSeconds := 30
  currentBatchId := 1
  paused := false

/-- addProvider (onlyOwner). -/
def addProvider (s : ContractState) (sender provider : Nat) : Outcome :=
  if sender ≠ s.owner then ⟨some Err.NotOwner, s, []⟩
  else if provider = 0 then ⟨some Err.InvalidArgument, s, []⟩
  else ⟨none, { s with isProvider := updMap s.isProvider provider true },
        [Event.ProviderAdded provider]⟩

/-- removeProvider (onlyOwner). -/
def removeProvider (s : ContractState) (sender provider : Nat) : Outcome :=
  if sender ≠ s.owner then ⟨some Err.NotOwner, s, []⟩
  else if !(s.isProvider provider) then ⟨some Err.InvalidArgument, s, []⟩
  else ⟨none, { s with isProvider := updMap s.isProvider provider false },
        [Event.ProviderRemoved provider]⟩

/-- setCooldownSeconds (onlyOwner); the event carries the old value. -/
def setCooldownSeconds (s : ContractState) (sender v : Nat) : Outcome :=
  if sender ≠ s.owner then ⟨some Err.NotOwner, s, []⟩
  else ⟨none, { s with cooldownSeconds := v },
        [Event.CooldownSecondsSet s.cooldownSeconds v]⟩

/-- pause (onlyOwner whenNotPaused). -/
def pause (s : ContractState) (sender : Nat) : Outcome :=
  if sender ≠ s.owner then ⟨some Err.NotOwner, s, []⟩
  else if s.paused then ⟨some Err.Paused, s, []⟩
  else ⟨none, { s with paused := true }, [Event.ContractPaused]⟩

/-- unpause (onlyOwner). -/
def unpause (s : ContractState) (sender : Nat) : Outcome :=
  if sender ≠ s.owner then ⟨some Err.NotOwner, s, []⟩
  else if !s.paused then ⟨some Err.InvalidArgument, s, []⟩
  else ⟨none, { s with paused := false }, [Event.ContractUnpaused]⟩

/-- openNewBatch (onlyOwner): increments currentBatchId, opens it. -/
def openNewBatch (s : ContractState) (sender : Nat) : Outcome :=
  if sender ≠ s.owner then ⟨some Err.NotOwner, s, []⟩
  else ⟨none,
        { s with currentBatchId := s.currentBatchId + 1,
                 batchOpen := updMap s.batchOpen (s.currentBatchId + 1) true },
        [Event.BatchOpened (s.currentBatchId + 1)]⟩

/-- closeCurrentBatch (onlyOwner). -/
def closeCurrentBatch (s : ContractState) (sender : Nat) : Outcome :=
  if sender ≠ s.owner then ⟨some Err.NotOwner, s, []⟩
  else if !(s.batchOpen s.currentBatchId) then ⟨some Err.InvalidArgument, s, []⟩
  else ⟨none,
        { s with batchOpen := updMap s.batchOpen s.currentBatchId false },
        [Event.BatchClosed s.currentBatchId]⟩

/-- submitEncryptedResources (onlyProvider whenNotPaused
checkCooldown(msg.sender)); ts is block.timestamp.  The modifiers run in
source order, then the body's guards. -/
def submitEncryptedResources (s : ContractState) (sender ts encTotal encRate : Nat) :
    Outcome :=
  if !(s.isProvider sender) then ⟨some Err.NotProvider, s, []⟩
  else if s.paused then ⟨some Err.Paused, s, []⟩
  else if ts < s.lastSubmissionTime sender + s.cooldownSeconds then
    ⟨some Err.CooldownActive, s, []⟩
  else if !(s.batchOpen s.currentBatchId) then ⟨some Err.BatchNotOpen, s, []⟩
  else if !(isInit encTotal) then ⟨some Err.InvalidArgument, s, []⟩
  else if !(isInit encRate) then ⟨some Err.InvalidArgument, s, []⟩
  else
    let inner := updMap (s.playerData s.currentBatchId) sender ⟨encTotal, encRate⟩
    ⟨none,
     { s with
        playerData := updMap s.playerData s.currentBatchId inner,
        lastSubmissionTime := updMap s.lastSubmissionTime sender ts },
     [Event.ResourcesSubmitted sender s.currentBatchId encTotal encRate]⟩

/-- requestDecryptionForPlayer (onlyProvider whenNotPaused
checkCooldown(msg.sender)); requestId is the id returned by the external
FHE.requestDecryption call. -/
def requestDecryptionForPlayer (s : ContractState)
    (sender ts playerAddress requestId : Nat) : Outcome :=
  if !(s.isProvider sender) then ⟨some Err.NotProvider, s, []⟩
  else if s.paused then ⟨some Err.Paused, s, []⟩
  else if ts < s.lastSubmissionTime sender + s.cooldownSeconds then
    ⟨some Err.CooldownActive, s, []⟩
  else if !(s.batchOpen s.currentBatchId) then ⟨some Err.BatchNotOpen, s, []⟩
  else
    let data := s.playerData s.currentBatchId playerAddress
    if !(isInit data.encryptedTotalResources) ||
       !(isInit data.encryptedCollectionRate) then
      ⟨some Err.InvalidArgument, s, []⟩
    else
      let stateHash := hashCiphertexts
        [data.encryptedTotalResources, data.encryptedCollectionRate] s.self
      let ctx : DecryptionContext := ⟨s.currentBatchId, stateHash, false⟩
      ⟨none,
       { s with
          decryptionContexts := updMap s.decryptionContexts requestId ctx,
          lastDecryptionRequestTime := updMap s.lastDecryptionRequestTime sender ts },
       [Event.DecryptionRequested requestId s.currentBatchId]⟩

/-- abi.decode(cleartexts[0:32], (uint32)) and
abi.decode(cleartexts[32:64], (uint32)): the cleartext bytes are a list
of 32-byte words; decoding needs two words, each a valid uint32. -/
def decodeTwoUint32 (cleartexts : List Nat) : Option (Nat × Nat) :=
  match cleartexts with
  | w0 :: w1 :: _ =>
      if w0 < 2 ^ 32 ∧ w1 < 2 ^ 32 then some (w0, w1) else none
  | _ => none

/-- myCallback (public, no modifiers).  Checks, in source order: the
replay guard on the context's processed flag; the recomputed state hash
over the handles re-fetched at playerData[ctx.batchId][msg.sender]; the
external FHE.checkSignatures oracle (proofOk); the abi.decode of the two
uint32 values; then marks the context processed and emits the result. -/
def myCallback (s : ContractState) (sender requestId : Nat)
    (cleartexts : List Nat) (proofOk : Bool) : Outcome :=
  if (s.decryptionContexts requestId).processed then ⟨some Err.ReplayAttempt, s, []⟩
  else
    let ctx := s.decryptionContexts requestId
    let data := s.playerData ctx.batchId sender
    let currentHash := hashCiphertexts
      [data.encryptedTotalResources, data.encryptedCollectionRate] s.self
    if currentHash ≠ ctx.stateHash then ⟨some Err.StateMismatch, s, []⟩
    else if !proofOk then ⟨some Err.InvalidProof, s, []⟩
    else
      match decodeTwoUint32 cleartexts with
      | none => ⟨some Err.DecodeError, s, []⟩
      | some (totalResources, collectionRate) =>
          let ctxDone : DecryptionContext := { ctx with processed := true }
          ⟨none,
           { s with
              decryptionContexts := updMap s.decryptionContexts requestId ctxDone },
           [Event.DecryptionCompleted requestId ctx.batchId
              totalResources collectionRate]⟩

/-- One external call to the contract, by any caller with any arguments,
taking the storage to the storage the call leaves behind (on a revert
that is the pre-state, by the atomicity theorem). -/
inductive Step : ContractState → ContractState → Prop
  | ofAddProvider (s : ContractState) (sender provider : Nat) :
      Step s (addProvider s sender provider).state
  | ofRemoveProvider (s : ContractState) (sender provider : Nat) :
      Step s (removeProvider s sender provider).state
  | ofSetCooldownSeconds (s : ContractState) (sender v : Nat) :
      Step s (setCooldownSeconds s sender v).state
  | ofPause (s : ContractState) (sender : Nat) :
      Step s (pause s sender).state
  | ofUnpause (s : ContractState) (sender : Nat) :
      Step s (unpause s sender).state
  | ofOpenNewBatch (s : ContractState) (sender : Nat) :
      Step s (openNewBatch s sender).state
  | ofCloseCurrentBatch (s : ContractState) (sender : Nat) :
      Step s (closeCurrentBatch s sender).state
  | ofSubmit (s : ContractState) (sender ts encTotal encRate : Nat) :
      Step s (submitEncryptedResources s sender ts encTotal encRate).state
  | ofRequest (s : ContractState) (sender ts playerAddress requestId : Nat) :
      Step s (requestDecryptionForPlayer s sender ts playerAddress requestId).state
  | ofCallback (s : ContractState) (sender requestId : Nat)
      (cleartexts : List Nat) (proofOk : Bool) :
      Step s (myCallback s sender requestId cleartexts proofOk).state

/-- States reachable from deployment through any sequence of calls. -/
inductive Reachable : ContractState → Prop
  | init (deployer self : Nat) : Reachable (initState deployer self)
  | step (s t : ContractState) : Reachable s → Step s t → Reachable t

/-- The storage written by a successful myCallback: only the context's
processed flag flips to true. -/
def markProcessed (s : ContractState) (requestId : Nat) : ContractState :=
  let ctxDone := { s.decryptionContexts requestId with processed := true }
  { s with decryptionContexts := updMap s.decryptionContexts requestId ctxDone }

/-- The hash myCallback recomputes: over the handles re-fetched at
playerData[ctx.batchId][msg.sender]. -/
def currentHashOf (s : ContractState) (sender requestId : Nat) : HashVal :=
  let data := s.playerData (s.decryptionContexts requestId).batchId sender
  hashCiphertexts [data.encryptedTotalResources, data.encryptedCollectionRate] s.self

/-- The callback as claim C2 (and the spec sentence it quotes) orders
it: hash recomputation and state-mismatch check first, then proof
verification, then the replay check, then decoding.  Written to be
compared against myCallback, whose source checks the replay guard
first. -/
def myCallbackClaimOrder (s : ContractState) (sender requestId : Nat)
    (cleartexts : List Nat) (proofOk : Bool) : Outcome :=
  let ctx := s.decryptionContexts requestId
  let data := s.playerData ctx.batchId sender
  let currentHash := hashCiphertexts
    [data.encryptedTotalResources, data.encryptedCollectionRate] s.self
  if currentHash ≠ ctx.stateHash then ⟨some Err.StateMismatch, s, []⟩
  else if !proofOk then ⟨some Err.InvalidProof, s, []⟩
  else if ctx.processed then ⟨some Err.ReplayAttempt, s, []⟩
  else
    match decodeTwoUint32 cleartexts with
    | none => ⟨some Err.DecodeError, s, []⟩
    | some (totalResources, collectionRate) =>
        let ctxDone := { ctx with processed := true }
        ⟨none,
         { s with decryptionContexts := updMap s.decryptionContexts requestId ctxDone },
         [Event.DecryptionCompleted requestId ctx.batchId totalResources collectionRate]⟩

/-- A demo deployment (owner 0, contract address 77) with provider 7,
whose last submission was at time 100; cooldownSeconds is the default 30. -/
def sProv : ContractState :=
  { initState 0 77 with
      isProvider := updMap (fun _ => false) 7 true,
      lastSubmissionTime := updMap (fun _ => 0) 7 100 }

/-- sProv with the pause flag set. -/
def sPaused : ContractState := { sProv with paused := true }

/-- A demo deployment with provider 7 (no prior submission) where player 9
holds submitted handles 5 and 6 in the open batch 1. -/
def sProv4 : ContractState :=
  { initState 0 77 with
      isProvider := updMap (fun _ => false) 7 true,
      playerData := fun b a => if b = 1 ∧ a = 9 then ⟨5, 6⟩ else ⟨0, 0⟩ }

/-- A state with a pending decryption context (request id 3, batch 1) for
the handles 5 and 9 that caller 7 holds in batch 1: myCallback succeeds
here. -/
def sCallbackOk : ContractState :=
  { initState 1 77 with
      playerData := fun b a => if b = 1 ∧ a = 7 then ⟨5, 9⟩ else ⟨0, 0⟩,
      decryptionContexts := updMap (fun _ => ⟨0, HashVal.zero, false⟩) 3 ⟨1, hashCiphertexts [5, 9] 77, false⟩ }

/-- sCallbackOk after its context was consumed. -/
def sCallbackDone : ContractState := markProcessed sCallbackOk 3

/-- A state whose stored context hash (over handles 5 and 9) does not
match the handles the callback re-fetches (the zero defaults). -/
def sMismatch : ContractState :=
  { initState 1 77 with
      decryptionContexts := updMap (fun _ => ⟨0, HashVal.zero, false⟩) 3 ⟨1, hashCiphertexts [5, 9] 77, false⟩ }

/-- sMismatch with the context additionally already processed: the replay
condition and the state-mismatch condition hold at once. -/
def sReplayedMismatch : ContractState := markProcessed sMismatch 3

theorem addProvider_cases (s : ContractState) (sender provider : Nat) :
    ((addProvider s sender provider).err ≠ none ∧ (addProvider s sender provider).state = s) ∨
    ((addProvider s sender provider).err = none ∧
      (addProvider s sender provider).state =
        { s with isProvider := updMap s.isProvider provider true }) := by
  simp only [addProvider]
  repeat' split
  all_goals first
  | exact Or.inl ⟨by simp, rfl⟩
  | exact Or.inr ⟨rfl, rfl⟩

theorem removeProvider_cases (s : ContractState) (sender provider : Nat) :
    ((removeProvider s sender provider).err ≠ none ∧
      (removeProvider s sender provider).state = s) ∨
    ((removeProvider s sender provider).err = none ∧
      (removeProvider s sender provider).state =
        { s with isProvider := updMap s.isProvider provider false }) := by
  simp only [removeProvider]
  repeat' split
  all_goals first
  | exact Or.inl ⟨by simp, rfl⟩
  | exact Or.inr ⟨rfl, rfl⟩

theorem setCooldownSeconds_cases (s : ContractState) (sender v : Nat) :
    ((setCooldownSeconds s sender v).err ≠ none ∧
      (setCooldownSeconds s sender v).state = s) ∨
    ((setCooldownSeconds s sender v).err = none ∧
      (setCooldownSeconds s sender v).state = { s with cooldownSeconds := v }) := by
  simp only [setCooldownSeconds]
  repeat' split
  all_goals first
  | exact Or.inl ⟨by simp, rfl⟩
  | exact Or.inr ⟨rfl, rfl⟩

theorem pause_cases (s : ContractState) (sender : Nat) :
    ((pause s sender).err ≠ none ∧ (pause s sender).state = s) ∨
    ((pause s sender).err = none ∧ (pause s sender).state = { s with paused := true }) := by
  simp only [pause]
  repeat' split
  all_goals first
  | exact Or.inl ⟨by simp, rfl⟩
  | exact Or.inr ⟨rfl, rfl⟩

theorem unpause_cases (s : ContractState) (sender : Nat) :
    ((unpause s sender).err ≠ none ∧ (unpause s sender).state = s) ∨
    ((unpause s sender).err = none ∧
      (unpause s sender).state = { s with paused := false }) := by
  simp only [unpause]
  repeat' split
  all_goals first
  | exact Or.inl ⟨by simp, rfl⟩
  | exact Or.inr ⟨rfl, rfl⟩

theorem openNewBatch_cases (s : ContractState) (sender : Nat) :
    ((openNewBatch s sender).err ≠ none ∧ (openNewBatch s sender).state = s) ∨
    ((openNewBatch s sender).err = none ∧
      (openNewBatch s sender).state =
        { s with currentBatchId := s.currentBatchId + 1,
                 batchOpen := updMap s.batchOpen (s.currentBatchId + 1) true }) := by
  simp only [openNewBatch]
  repeat' split
  all_goals first
  | exact Or.inl ⟨by simp, rfl⟩
  | exact Or.inr ⟨rfl, rfl⟩

theorem closeCurrentBatch_cases (s : ContractState) (sender : Nat) :
    ((closeCurrentBatch s sender).err ≠ none ∧ (closeCurrentBatch s sender).state = s) ∨
    ((closeCurrentBatch s sender).err = none ∧
      (closeCurrentBatch s sender).state =
        { s with batchOpen := updMap s.batchOpen s.currentBatchId false }) := by
  simp only [closeCurrentBatch]
  repeat' split
  all_goals first
  | exact Or.inl ⟨by simp, rfl⟩
  | exact Or.inr ⟨rfl, rfl⟩

theorem submitEncryptedResources_cases (s : ContractState)
    (sender ts encTotal encRate : Nat) :
    ((submitEncryptedResources s sender ts encTotal encRate).err ≠ none ∧
      (submitEncryptedResources s sender ts encTotal encRate).state = s) ∨
    ((submitEncryptedResources s sender ts encTotal encRate).err = none ∧
      (submitEncryptedResources s sender ts encTotal encRate).state =
        { s with
            playerData := updMap s.playerData s.currentBatchId
              (updMap (s.playerData s.currentBatchId) sender ⟨encTotal, encRate⟩),
            lastSubmissionTime := updMap s.lastSubmissionTime sender ts }) := by
  simp only [submitEncryptedResources]
  repeat' split
  all_goals first
  | exact Or.inl ⟨by simp, rfl⟩
  | exact Or.inr ⟨rfl, rfl⟩

theorem requestDecryptionForPlayer_cases (s : ContractState)
    (sender ts playerAddress requestId : Nat) :
    ((requestDecryptionForPlayer s sender ts playerAddress requestId).err ≠ none ∧
      (requestDecryptionForPlayer s sender ts playerAddress requestId).state = s) ∨
    ((requestDecryptionForPlayer s sender ts playerAddress requestId).err = none ∧
      (requestDecryptionForPlayer s sender ts playerAddress requestId).state =
        { s with
            decryptionContexts := updMap s.decryptionContexts requestId
              ⟨s.currentBatchId,
               hashCiphertexts
                 [(s.playerData s.currentBatchId playerAddress).encryptedTotalResources,
                  (s.playerData s.currentBatchId playerAddress).encryptedCollectionRate]
                 s.self,
               false⟩,
            lastDecryptionRequestTime := updMap s.lastDecryptionRequestTime sender ts }) := by
  simp only [requestDecryptionForPlayer]
  repeat' split
  all_goals first
  | exact Or.inl ⟨by simp, rfl⟩
  | exact Or.inr ⟨rfl, rfl⟩

theorem myCallback_cases (s : ContractState) (sender requestId : Nat)
    (cleartexts : List Nat) (proofOk : Bool) :
    ((myCallback s sender requestId cleartexts proofOk).err ≠ none ∧
      (myCallback s sender requestId cleartexts proofOk).state = s) ∨
    ((myCallback s sender requestId cleartexts proofOk).err = none ∧
      (myCallback s sender requestId cleartexts proofOk).state =
        markProcessed s requestId) := by
  simp only [myCallback, markProcessed]
  repeat' split
  all_goals first
  | exact Or.inl ⟨by simp, rfl⟩
  | exact Or.inr ⟨rfl, rfl⟩

/-- Any single call changes the batchOpen mapping and currentBatchId in
one of exactly three ways: not at all; openNewBatch's increment-and-open;
closeCurrentBatch's close-current. -/
theorem step_batch_fields {s t : ContractState} (h : Step s t) :
    (t.batchOpen = s.batchOpen ∧ t.currentBatchId = s.currentBatchId) ∨
    (t.batchOpen = updMap s.batchOpen (s.currentBatchId + 1) true ∧
      t.currentBatchId = s.currentBatchId + 1) ∨
    (t.batchOpen = updMap s.batchOpen s.currentBatchId false ∧
      t.currentBatchId = s.currentBatchId) := by
  cases h with
  | ofAddProvider sender provider =>
      rcases addProvider_cases s sender provider with ⟨_, hst⟩ | ⟨_, hst⟩ <;>
        rw [hst] <;> exact Or.inl ⟨rfl, rfl⟩
  | ofRemoveProvider sender provider =>
      rcases removeProvider_cases s sender provider with ⟨_, hst⟩ | ⟨_, hst⟩ <;>
        rw [hst] <;> exact Or.inl ⟨rfl, rfl⟩
  | ofSetCooldownSeconds sender v =>
      rcases setCooldownSeconds_cases s sender v with ⟨_, hst⟩ | ⟨_, hst⟩ <;>
        rw [hst] <;> exact Or.inl ⟨rfl, rfl⟩
  | ofPause sender =>
      rcases pause_cases s sender with ⟨_, hst⟩ | ⟨_, hst⟩ <;>
        rw [hst] <;> exact Or.inl ⟨rfl, rfl⟩
  | ofUnpause sender =>
      rcases unpause_cases s sender with ⟨_, hst⟩ | ⟨_, hst⟩ <;>
        rw [hst] <;> exact Or.inl ⟨rfl, rfl⟩
  | ofOpenNewBatch sender =>
      rcases openNewBatch_cases s sender with ⟨_, hst⟩ | ⟨_, hst⟩
      · rw [hst]; exact Or.inl ⟨rfl, rfl⟩
      · rw [hst]; exact Or.inr (Or.inl ⟨rfl, rfl⟩)
  | ofCloseCurrentBatch sender =>
      rcases closeCurrentBatch_cases s sender with ⟨_, hst⟩ | ⟨_, hst⟩
      · rw [hst]; exact Or.inl ⟨rfl, rfl⟩
      · rw [hst]; exact Or.inr (Or.inr ⟨rfl, rfl⟩)
  | ofSubmit sender ts encTotal encRate =>
      rcases submitEncryptedResources_cases s sender ts encTotal encRate with
        ⟨_, hst⟩ | ⟨_, hst⟩ <;> rw [hst] <;> exact Or.inl ⟨rfl, rfl⟩
  | ofRequest sender ts playerAddress requestId =>
      rcases requestDecryptionForPlayer_cases s sender ts playerAddress requestId with
        ⟨_, hst⟩ | ⟨_, hst⟩ <;> rw [hst] <;> exact Or.inl ⟨rfl, rfl⟩
  | ofCallback sender requestId cleartexts proofOk =>
      rcases myCallback_cases s sender requestId cleartexts proofOk with
        ⟨_, hst⟩ | ⟨_, hst⟩ <;> rw [hst] <;> exact Or.inl ⟨rfl, rfl⟩

/-- Claim C8: for every contract operation and every state, a call that
reverts with one of the contract's failure conditions leaves the storage
exactly as it was before the call - the failure is atomic with no
partial state change.  (Proved for every error each operation can
produce, the named custom errors included.) -/
theorem failed_call_leaves_state (s : ContractState) :
    (∀ sender provider e, (addProvider s sender provider).err = some e →
      (addProvider s sender provider).state = s) ∧
    (∀ sender provider e, (removeProvider s sender provider).err = some e →
      (removeProvider s sender provider).state = s) ∧
    (∀ sender v e, (setCooldownSeconds s sender v).err = some e →
      (setCooldownSeconds s sender v).state = s) ∧
    (∀ sender e, (pause s sender).err = some e → (pause s sender).state = s) ∧
    (∀ sender e, (unpause s sender).err = some e → (unpause s sender).state = s) ∧
    (∀ sender e, (openNewBatch s sender).err = some e →
      (openNewBatch s sender).state = s) ∧
    (∀ sender e, (closeCurrentBatch s sender).err = some e →
      (closeCurrentBatch s sender).state = s) ∧
    (∀ sender ts encTotal encRate e,
      (submitEncryptedResources s sender ts encTotal encRate).err = some e →
      (submitEncryptedResources s sender ts encTotal encRate).state = s) ∧
    (∀ sender ts playerAddress requestId e,
      (requestDecryptionForPlayer s sender ts playerAddress requestId).err = some e →
      (requestDecryptionForPlayer s sender ts playerAddress requestId).state = s) ∧
    (∀ sender requestId cleartexts proofOk e,
      (myCallback s sender requestId cleartexts proofOk).err = some e →
      (myCallback s sender requestId cleartexts proofOk).state = s) := by
  refine ⟨?_, ?_, ?_, ?_, ?_, ?_, ?_, ?_, ?_, ?_⟩
  · intro sender provider e h
    rcases addProvider_cases s sender provider with ⟨_, hst⟩ | ⟨he, _⟩
    · exact hst
    · rw [he] at h; exact Option.noConfusion h
  · intro sender provider e h
    rcases removeProvider_cases s sender provider with ⟨_, hst⟩ | ⟨he, _⟩
    · exact hst
    · rw [he] at h; exact Option.noConfusion h
  · intro sender v e h
    rcases setCooldownSeconds_cases s sender v with ⟨_, hst⟩ | ⟨he, _⟩
    · exact hst
    · rw [he] at h; exact Option.noConfusion h
  · intro sender e h
    rcases pause_cases s sender with ⟨_, hst⟩ | ⟨he, _⟩
    · exact hst
    · rw [he] at h; exact Option.noConfusion h
  · intro sender e h
    rcases unpause_cases s sender with ⟨_, hst⟩ | ⟨he, _⟩
    · exact hst
    · rw [he] at h; exact Option.noConfusion h
  · intro sender e h
    rcases openNewBatch_cases s sender with ⟨_, hst⟩ | ⟨he, _⟩
    · exact hst
    · rw [he] at h; exact Option.noConfusion h
  · intro sender e h
    rcases closeCurrentBatch_cases s sender with ⟨_, hst⟩ | ⟨he, _⟩
    · exact hst
    · rw [he] at h; exact Option.noConfusion h
  · intro sender ts encTotal encRate e h
    rcases submitEncryptedResources_cases s sender ts encTotal encRate with
      ⟨_, hst⟩ | ⟨he, _⟩
    · exact hst
    · rw [he] at h; exact Option.noConfusion h
  · intro sender ts playerAddress requestId e h
    rcases requestDecryptionForPlayer_cases s sender ts playerAddress requestId with
      ⟨_, hst⟩ | ⟨he, _⟩
    · exact hst
    · rw [he] at h; exact Option.noConfusion h
  · intro sender requestId cleartexts proofOk e h
    rcases myCallback_cases s sender requestId cleartexts proofOk with
      ⟨_, hst⟩ | ⟨he, _⟩
    · exact hst
    · rw [he] at h; exact Option.noConfusion h

/-- Witness for C8: a concrete failing call (addProvider by a non-owner
on a fresh deployment) reverts with NotOwner and leaves the storage the
deployment state. -/
theorem failed_call_leaves_state_witness :
    (addProvider (initState 0 77) 5 9).err = some Err.NotOwner ∧
    (addProvider (initState 0 77) 5 9).state = initState 0 77 :=
  ⟨rfl, (failed_call_leaves_state (initState 0 77)).1 5 9 Err.NotOwner rfl⟩

/-- Claim C9: a closed batch id never opens again.  In every reachable
state every batch id above currentBatchId is still unopened; a call never
decreases currentBatchId; and a call never re-opens a batch id at or
below currentBatchId that is closed (openNewBatch only opens the freshly
incremented id, closeCurrentBatch only clears the current id). -/
theorem batch_open_monotone :
    (∀ s, Reachable s → ∀ i, s.currentBatchId < i → s.batchOpen i = false) ∧
    (∀ s t, Step s t → s.currentBatchId ≤ t.currentBatchId) ∧
    (∀ s t, Step s t → ∀ i, i ≤ s.currentBatchId → s.batchOpen i = false →
      t.batchOpen i = false) := by
  refine ⟨?_, ?_, ?_⟩
  · intro s hs
    induction hs with
    | init deployer self =>
        intro i hi
        have hne : i ≠ 1 := by
          simp only [initState] at hi
          omega
        simp [initState, hne]
    | step s t hs hstep ih =>
        intro i hi
        rcases step_batch_fields hstep with ⟨hb, hc⟩ | ⟨hb, hc⟩ | ⟨hb, hc⟩
        · rw [hb]
          exact ih i (by omega)
        · rw [hb]
          have hne : i ≠ s.currentBatchId + 1 := by omega
          simp only [updMap, hne, if_false]
          exact ih i (by omega)
        · rw [hb]
          simp only [updMap]
          split
          · rfl
          · exact ih i (by omega)
  · intro s t hstep
    rcases step_batch_fields hstep with ⟨_, hc⟩ | ⟨_, hc⟩ | ⟨_, hc⟩ <;> omega
  · intro s t hstep i hle hclosed
    rcases step_batch_fields hstep with ⟨hb, _⟩ | ⟨hb, _⟩ | ⟨hb, _⟩
    · rw [hb]; exact hclosed
    · rw [hb]
      have hne : i ≠ s.currentBatchId + 1 := by omega
      simp only [updMap, hne, if_false]
      exact hclosed
    · rw [hb]
      simp only [updMap]
      split
      · rfl
      · exact hclosed

/-- Witness for C9, at the deployment state: batch 2 is unopened, a
concrete call cannot decrease the batch id, and a concrete call keeps a
closed-or-unopened id closed. -/
theorem batch_open_monotone_witness :
    ((initState 0 77).currentBatchId < 2 ∧ (initState 0 77).batchOpen 2 = false) ∧
    (initState 0 77).currentBatchId ≤ (pause (initState 0 77) 0).state.currentBatchId ∧
    (closeCurrentBatch (initState 0 77) 0).state.batchOpen 0 = false := by
  refine ⟨⟨by decide, ?_⟩, ?_, ?_⟩
  · exact batch_open_monotone.1 (initState 0 77) (Reachable.init 0 77) 2 (by decide)
  · exact batch_open_monotone.2.1 (initState 0 77) _ (Step.ofPause (initState 0 77) 0)
  · exact batch_open_monotone.2.2 (initState 0 77) _
      (Step.ofCloseCurrentBatch (initState 0 77) 0) 0 (by decide) (by decide)

/-- Claim C10: myCallback carries none of the contract's access or
throttling guards - for every caller, state and argument it never
reverts with NotProvider, Paused or CooldownActive. -/
theorem callback_ungated (s : ContractState) (sender requestId : Nat)
    (cleartexts : List Nat) (proofOk : Bool) :
    (myCallback s sender requestId cleartexts proofOk).err ≠ some Err.NotProvider ∧
    (myCallback s sender requestId cleartexts proofOk).err ≠ some Err.Paused ∧
    (myCallback s sender requestId cleartexts proofOk).err ≠ some Err.CooldownActive := by
  simp only [myCallback]
  repeat' split
  all_goals refine ⟨?_, ?_, ?_⟩ <;> simp

/-- Claim C5: a caller not on the provider allow-list gets NotProvider
from both submitEncryptedResources and requestDecryptionForPlayer (with
no state change), and a caller on the allow-list never fails with
NotProvider. -/
theorem provider_gate (s : ContractState)
    (sender ts encTotal encRate playerAddress requestId : Nat) :
    (s.isProvider sender = false →
      submitEncryptedResources s sender ts encTotal encRate =
        ⟨some Err.NotProvider, s, []⟩ ∧
      requestDecryptionForPlayer s sender ts playerAddress requestId =
        ⟨some Err.NotProvider, s, []⟩) ∧
    (s.isProvider sender = true →
      (submitEncryptedResources s sender ts encTotal encRate).err ≠
        some Err.NotProvider ∧
      (requestDecryptionForPlayer s sender ts playerAddress requestId).err ≠
        some Err.NotProvider) := by
  constructor
  · intro h
    constructor
    · simp [submitEncryptedResources, h]
    · simp [requestDecryptionForPlayer, h]
  · intro h
    constructor
    · simp only [submitEncryptedResources]
      repeat' split
      all_goals simp_all
    · simp only [requestDecryptionForPlayer]
      repeat' split
      all_goals simp_all

/-- Witness for C5: on a fresh deployment address 5 is not a provider and
gets NotProvider; in sProv the allow-listed address 7 does not. -/
theorem provider_gate_witness :
    submitEncryptedResources (initState 0 77) 5 100 5 9 =
      ⟨some Err.NotProvider, initState 0 77, []⟩ ∧
    (submitEncryptedResources sProv 7 130 5 9).err ≠ some Err.NotProvider :=
  ⟨((provider_gate (initState 0 77) 5 100 5 9 0 0).1 rfl).1,
   ((provider_gate sProv 7 130 5 9 0 0).2 rfl).1⟩

/-- Claim C1: a decryption context's processed flag transitions
false→true at most once.  After a successful myCallback for a request
id, every further myCallback call with the same request id - any
caller, cleartexts or proof - reverts with ReplayAttempt and returns
the storage unchanged, the context included. -/
theorem callback_replay_protection (s : ContractState) (sender requestId : Nat)
    (cleartexts : List Nat) (proofOk : Bool)
    (h : (myCallback s sender requestId cleartexts proofOk).err = none) :
    ∀ sender2 cleartexts2 proofOk2,
      myCallback (myCallback s sender requestId cleartexts proofOk).state
          sender2 requestId cleartexts2 proofOk2 =
        ⟨some Err.ReplayAttempt,
         (myCallback s sender requestId cleartexts proofOk).state, []⟩ := by
  intro sender2 cleartexts2 proofOk2
  rcases myCallback_cases s sender requestId cleartexts proofOk with ⟨hne, _⟩ | ⟨_, hst⟩
  · exact absurd h hne
  · rw [hst]
    have hproc : ((markProcessed s requestId).decryptionContexts requestId).processed
        = true := by
      simp [markProcessed, updMap]
    simp [myCallback, hproc]

/-- Witness for C1: in sCallbackOk the callback for request 3 succeeds,
and a second callback with request id 3 on the resulting state reverts
with ReplayAttempt, leaving that state untouched. -/
theorem callback_replay_protection_witness :
    (myCallback sCallbackOk 7 3 [4, 6] true).err = none ∧
    myCallback (myCallback sCallbackOk 7 3 [4, 6] true).state 8 3 [5, 5] false =
      ⟨some Err.ReplayAttempt, (myCallback sCallbackOk 7 3 [4, 6] true).state, []⟩ :=
  ⟨rfl, callback_replay_protection sCallbackOk 7 3 [4, 6] true rfl 8 [5, 5] false⟩

/-- Claim C3: once the earlier guards pass (the caller is a provider and
the contract is not paused), a submitEncryptedResources call strictly
before cooldownSeconds have elapsed since the caller's last recorded
submission reverts with CooldownActive and changes nothing, and a call
at or after the end of the window (with the batch open and both handles
initialized) succeeds. -/
theorem submit_cooldown_window (s : ContractState) (sender ts encTotal encRate : Nat)
    (hprov : s.isProvider sender = true) (hpause : s.paused = false) :
    (ts < s.lastSubmissionTime sender + s.cooldownSeconds →
      submitEncryptedResources s sender ts encTotal encRate =
        ⟨some Err.CooldownActive, s, []⟩) ∧
    (s.lastSubmissionTime sender + s.cooldownSeconds ≤ ts →
      s.batchOpen s.currentBatchId = true → encTotal ≠ 0 → encRate ≠ 0 →
      (submitEncryptedResources s sender ts encTotal encRate).err = none) := by
  constructor
  · intro hlt
    simp [submitEncryptedResources, hprov, hpause, hlt]
  · intro hge hopen h1 h2
    simp [submitEncryptedResources, hprov, hpause, Nat.not_lt.mpr hge, hopen,
      isInit, h1, h2]

/-- Witness for C3: provider 7 last submitted at time 100 with a
30-second cooldown; submitting at 110 fails with CooldownActive,
submitting at 130 succeeds. -/
theorem submit_cooldown_window_witness :
    submitEncryptedResources sProv 7 110 5 9 = ⟨some Err.CooldownActive, sProv, []⟩ ∧
    (submitEncryptedResources sProv 7 130 5 9).err = none := by
  constructor
  · exact (submit_cooldown_window sProv 7 110 5 9 rfl rfl).1 (by decide)
  · exact (submit_cooldown_window sProv 7 130 5 9 rfl rfl).2 (by decide) rfl
      (by decide) (by decide)

/-- Counterexample to C4 as stated: the cooldown is not measured since
the sender's last action of either kind.  Provider 7 has never
submitted; two decryption requests at times 100 and 101 - inside one
30-second cooldown window of each other - both succeed. -/
theorem decryption_request_cooldown_counterexample :
    (requestDecryptionForPlayer sProv4 7 100 9 11).err = none ∧
    101 < 100 + sProv4.cooldownSeconds ∧
    (requestDecryptionForPlayer (requestDecryptionForPlayer sProv4 7 100 9 11).state
        7 101 9 12).err = none :=
  ⟨rfl, by decide, rfl⟩

/-- Claim C4 amended: the per-sender cooldown window is measured since
the sender's last submission only.  During that window both
submitEncryptedResources and requestDecryptionForPlayer from the sender
revert with CooldownActive; but a decryption request does not start a
cooldown: it never touches lastSubmissionTime (it records
lastDecryptionRequestTime, which checkCooldown never reads), so two
decryption requests inside one window can both succeed. -/
theorem cooldown_measures_last_submission (s : ContractState)
    (sender ts encTotal encRate playerAddress requestId : Nat)
    (hprov : s.isProvider sender = true) (hpause : s.paused = false) :
    (ts < s.lastSubmissionTime sender + s.cooldownSeconds →
      submitEncryptedResources s sender ts encTotal encRate =
        ⟨some Err.CooldownActive, s, []⟩ ∧
      requestDecryptionForPlayer s sender ts playerAddress requestId =
        ⟨some Err.CooldownActive, s, []⟩) ∧
    (requestDecryptionForPlayer s sender ts playerAddress requestId).state.lastSubmissionTime
      = s.lastSubmissionTime := by
  constructor
  · intro hlt
    constructor
    · simp [submitEncryptedResources, hprov, hpause, hlt]
    · simp [requestDecryptionForPlayer, hprov, hpause, hlt]
  · rcases requestDecryptionForPlayer_cases s sender ts playerAddress requestId with
      ⟨_, hst⟩ | ⟨_, hst⟩ <;> rw [hst]

/-- Witness for C4 amended: inside the window opened by 7's submission
at time 100 both operations revert with CooldownActive at time 110. -/
theorem cooldown_measures_last_submission_witness :
    submitEncryptedResources sProv 7 110 4 8 = ⟨some Err.CooldownActive, sProv, []⟩ ∧
    requestDecryptionForPlayer sProv 7 110 9 11 = ⟨some Err.CooldownActive, sProv, []⟩ :=
  (cooldown_measures_last_submission sProv 7 110 4 8 9 11 rfl rfl).1 (by decide)

/-- Counterexample to C6 as stated: with the pause flag set, a caller
not on the provider allow-list gets NotProvider, not Paused, from
submitEncryptedResources - the provider gate runs before the pause
gate, so the error is not Paused for every caller. -/
theorem paused_nonprovider_counterexample :
    sPaused.paused = true ∧
    (submitEncryptedResources sPaused 5 1000 5 9).err = some Err.NotProvider ∧
    Err.NotProvider ≠ Err.Paused :=
  ⟨rfl, rfl, by decide⟩

/-- Claim C6 amended: when the pause flag is set, every pause-gated
operation (submitEncryptedResources and requestDecryptionForPlayer)
reverts with no state change, for every caller and every argument; the
error is Paused for every caller on the provider allow-list, while a
non-provider caller fails the earlier provider gate with NotProvider. -/
theorem paused_blocks_gated_ops (s : ContractState) (hpaused : s.paused = true)
    (sender ts encTotal encRate playerAddress requestId : Nat) :
    ((submitEncryptedResources s sender ts encTotal encRate).err ≠ none ∧
     (submitEncryptedResources s sender ts encTotal encRate).state = s ∧
     (requestDecryptionForPlayer s sender ts playerAddress requestId).err ≠ none ∧
     (requestDecryptionForPlayer s sender ts playerAddress requestId).state = s) ∧
    (s.isProvider sender = true →
      (submitEncryptedResources s sender ts encTotal encRate).err = some Err.Paused ∧
      (requestDecryptionForPlayer s sender ts playerAddress requestId).err =
        some Err.Paused) := by
  constructor
  · cases hp : s.isProvider sender
    · refine ⟨?_, ?_, ?_, ?_⟩ <;>
        simp [submitEncryptedResources, requestDecryptionForPlayer, hp]
    · refine ⟨?_, ?_, ?_, ?_⟩ <;>
        simp [submitEncryptedResources, requestDecryptionForPlayer, hp, hpaused]
  · intro hp
    constructor <;>
      simp [submitEncryptedResources, requestDecryptionForPlayer, hp, hpaused]

/-- Witness for C6 amended: in the paused state sPaused the provider 7
gets Paused, and the non-provider 5's call leaves the state unchanged. -/
theorem paused_blocks_gated_ops_witness :
    (submitEncryptedResources sPaused 7 1000 5 9).err = some Err.Paused ∧
    (submitEncryptedResources sPaused 5 1000 5 9).state = sPaused :=
  ⟨((paused_blocks_gated_ops sPaused rfl 7 1000 5 9 9 11).2 rfl).1,
   (paused_blocks_gated_ops sPaused rfl 5 1000 5 9 9 11).1.2.1⟩

/-- Claim C7: every successful requestDecryptionForPlayer stores, under
the request id, a context whose stateHash is the hash of the target
player's two stored handles together with the contract's own address,
whose batchId is the current batch id, and whose processed flag is
false. -/
theorem request_stores_context (s : ContractState)
    (sender ts playerAddress requestId : Nat)
    (h : (requestDecryptionForPlayer s sender ts playerAddress requestId).err = none) :
    (requestDecryptionForPlayer s sender ts playerAddress requestId).state.decryptionContexts
        requestId =
      ⟨s.currentBatchId,
       hashCiphertexts
         [(s.playerData s.currentBatchId playerAddress).encryptedTotalResources,
          (s.playerData s.currentBatchId playerAddress).encryptedCollectionRate] s.self,
       false⟩ := by
  rcases requestDecryptionForPlayer_cases s sender ts playerAddress requestId with
    ⟨hne, _⟩ | ⟨_, hst⟩
  · exact absurd h hne
  · rw [hst]
    simp [updMap]

/-- Witness for C7: the successful request in sProv4 stores, under id
11, the context for batch 1 with the hash of handles 5 and 6 plus the
contract address 77, unprocessed. -/
theorem request_stores_context_witness :
    (requestDecryptionForPlayer sProv4 7 100 9 11).state.decryptionContexts 11 =
      ⟨1, hashCiphertexts [5, 6] 77, false⟩ :=
  request_stores_context sProv4 7 100 9 11 rfl

/-- Counterexample to C2 as stated: in a state where the context is
already processed and the stored hash no longer matches the re-fetched
handles, the code reverts with ReplayAttempt, while the claimed ordering
(hash check, then proof, then replay check) would give StateMismatch. -/
theorem callback_order_counterexample :
    (sReplayedMismatch.decryptionContexts 3).processed = true ∧
    (myCallback sReplayedMismatch 7 3 [4, 6] true).err = some Err.ReplayAttempt ∧
    (myCallbackClaimOrder sReplayedMismatch 7 3 [4, 6] true).err =
      some Err.StateMismatch ∧
    Err.ReplayAttempt ≠ Err.StateMismatch :=
  ⟨rfl, rfl, rfl, by decide⟩

/-- Claim C2 amended: myCallback performs its steps in this order: it
first reverts with ReplayAttempt if the context is already processed;
then it recomputes the hash over the re-fetched stored handles and
reverts with StateMismatch if it differs from the stored hash; then it
verifies the proof via the external signature-check entry point; then it
decodes two 32-bit values from the cleartext bytes and marks the context
processed, emitting the result event. -/
theorem callback_check_order (s : ContractState) (sender requestId : Nat)
    (cleartexts : List Nat) (proofOk : Bool) :
    ((s.decryptionContexts requestId).processed = true →
      myCallback s sender requestId cleartexts proofOk =
        ⟨some Err.ReplayAttempt, s, []⟩) ∧
    ((s.decryptionContexts requestId).processed = false →
      currentHashOf s sender requestId ≠ (s.decryptionContexts requestId).stateHash →
      myCallback s sender requestId cleartexts proofOk =
        ⟨some Err.StateMismatch, s, []⟩) ∧
    ((s.decryptionContexts requestId).processed = false →
      currentHashOf s sender requestId = (s.decryptionContexts requestId).stateHash →
      proofOk = false →
      myCallback s sender requestId cleartexts proofOk =
        ⟨some Err.InvalidProof, s, []⟩) ∧
    (∀ tr cr, (s.decryptionContexts requestId).processed = false →
      currentHashOf s sender requestId = (s.decryptionContexts requestId).stateHash →
      proofOk = true →
      decodeTwoUint32 cleartexts = some (tr, cr) →
      myCallback s sender requestId cleartexts proofOk =
        ⟨none, markProcessed s requestId,
         [Event.DecryptionCompleted requestId
            (s.decryptionContexts requestId).batchId tr cr]⟩) := by
  refine ⟨?_, ?_, ?_, ?_⟩
  · intro hp
    simp [myCallback, hp]
  · intro hp hne
    simp only [currentHashOf] at hne
    simp [myCallback, hp, hne]
  · intro hp heq hpf
    simp only [currentHashOf] at heq
    simp [myCallback, hp, heq, hpf]
  · intro tr cr hp heq hpf hd
    simp only [currentHashOf] at heq
    simp [myCallback, markProcessed, hp, heq, hpf, hd]

/-- Witness for C2 amended, one concrete state per branch: a processed
context gives ReplayAttempt; an unprocessed context with a changed hash
gives StateMismatch; matching hash with a bad proof gives InvalidProof;
and the happy path consumes the context and emits the decoded values. -/
theorem callback_check_order_witness :
    myCallback sCallbackDone 7 3 [4, 6] true =
      ⟨some Err.ReplayAttempt, sCallbackDone, []⟩ ∧
    myCallback sMismatch 7 3 [4, 6] true = ⟨some Err.StateMismatch, sMismatch, []⟩ ∧
    myCallback sCallbackOk 7 3 [4, 6] false = ⟨some Err.InvalidProof, sCallbackOk, []⟩ ∧
    myCallback sCallbackOk 7 3 [4, 6] true =
      ⟨none, markProcessed sCallbackOk 3, [Event.DecryptionCompleted 3 1 4 6]⟩ := by
  refine ⟨?_, ?_, ?_, ?_⟩
  · exact (callback_check_order sCallbackDone 7 3 [4, 6] true).1 rfl
  · exact (callback_check_order sMismatch 7 3 [4, 6] true).2.1 rfl (by decide)
  · exact (callback_check_order sCallbackOk 7 3 [4, 6] false).2.2.1 rfl rfl rfl
  · exact (callback_check_order sCallbackOk 7 3 [4, 6] true).2.2.2 4 6 rfl rfl rfl rfl

end RTSFheGame
